import Mathlib

/-!
Verification of the permission-evaluation logic of the RBAC demo
(`rbac_simple.py`). The Python data model and the access-control functions
are embedded shallowly: pydantic models become structures, the in-memory
dict registries become functions from keys to optional entries (the model
of `dict.get`), raised `HTTPException`s become `Except.error` values, and
the role loop of the `permission_required` decorator becomes a structural
recursion over the role-name list.
-/

/-- The `User` pydantic model: username (unique key), password, list of
role names, and a disabled flag defaulting to false. -/
structure User where
  username : String
  password : String
  roles : List String
  disabled : Bool := false
deriving DecidableEq, Repr

/-- The `Role` pydantic model: role name and its list of permission
tokens. -/
structure Role where
  name : String
  permissions : List String
deriving DecidableEq, Repr

/-- The user registry: the model of the `fake_users_db` dict, read through
`dict.get` / `in` only, hence a function from keys to optional users. -/
abbrev UsersDb := String → Option User

/-- The role registry: the model of the `fake_roles_db` dict. -/
abbrev RolesDb := String → Option Role

/-- `fake_users_db` from the source: admin, editor and viewer, each with a
single role and the default `disabled = False`. -/
def fake_users_db : UsersDb := fun username =>
  if username = "admin" then some ⟨"admin", "adminpass", ["admin"], false⟩
  else if username = "editor" then some ⟨"editor", "editorpass", ["editor"], false⟩
  else if username = "viewer" then some ⟨"viewer", "viewerpass", ["viewer"], false⟩
  else none

/-- `fake_roles_db` from the source: admin holds all four permissions,
editor read and update, viewer read only. -/
def fake_roles_db : RolesDb := fun name =>
  if name = "admin" then some ⟨"admin", ["create", "read", "update", "delete"]⟩
  else if name = "editor" then some ⟨"editor", ["read", "update"]⟩
  else if name = "viewer" then some ⟨"viewer", ["read"]⟩
  else none

/-- A raised `fastapi.HTTPException`, reduced to its observable payload:
status code, detail message and extra headers. -/
structure HTTPException where
  status_code : Nat
  detail : String
  headers : List (String × String) := []
deriving DecidableEq, Repr

/-- The role loop of `permission_required` (and of the identical loops in
the test helpers): walk the role-name list; `fake_roles_db.get(role_name)`
yielding `None` is skipped silently; on the first resolved role whose
permission list contains the permission, stop with `true` (the `break`);
`false` if the list is exhausted. -/
def role_loop (rolesDb : RolesDb) (permission : String) : List String → Bool
  | [] => false
  | role_name :: rest =>
    match rolesDb role_name with
    | some role =>
      if permission ∈ role.permissions then true
      else role_loop rolesDb permission rest
    | none => role_loop rolesDb permission rest

/-- The permission check on a user: the body of lines 133-140 of the
source, the model of the specification operation `hasCapability`. -/
def has_permission (rolesDb : RolesDb) (current_user : User) (permission : String) : Bool :=
  role_loop rolesDb permission current_user.roles

theorem role_loop_eq_true_iff (rolesDb : RolesDb) (permission : String) (names : List String) :
    role_loop rolesDb permission names = true ↔
      ∃ name, name ∈ names ∧
        ∃ role, rolesDb name = some role ∧ permission ∈ role.permissions := by
  induction names with
  | nil => simp [role_loop]
  | cons n rest ih =>
    cases h : rolesDb n with
    | none =>
      simp only [role_loop, h]
      rw [ih]
      constructor
      · rintro ⟨name, hmem, hrest⟩
        exact ⟨name, List.mem_cons_of_mem _ hmem, hrest⟩
      · rintro ⟨name, hmem, role, hget, hperm⟩
        rcases List.mem_cons.mp hmem with rfl | hmem
        · rw [h] at hget; cases hget
        · exact ⟨name, hmem, role, hget, hperm⟩
    | some r =>
      simp only [role_loop, h]
      by_cases hp : permission ∈ r.permissions
      · rw [if_pos hp]
        constructor
        · intro _
          exact ⟨n, List.mem_cons_self n rest, r, h, hp⟩
        · intro _; rfl
      · rw [if_neg hp, ih]
        constructor
        · rintro ⟨name, hmem, hrest⟩
          exact ⟨name, List.mem_cons_of_mem _ hmem, hrest⟩
        · rintro ⟨name, hmem, role, hget, hperm⟩
          rcases List.mem_cons.mp hmem with rfl | hmem
          · rw [h] at hget
            cases hget
            exact absurd hperm hp
          · exact ⟨name, hmem, role, hget, hperm⟩

/-- The permission accumulation loop of `get_user_permissions` (and of the
identical loops of the login display code): starting from an accumulator,
walk the role-name list and add the permission list of each resolved role
(Python `set.update`; the set of strings is modelled as a list, membership
being the observable). Unresolved names are skipped. -/
def update_loop (rolesDb : RolesDb) : List String → List String → List String
  | permissions, [] => permissions
  | permissions, role_name :: rest =>
    match rolesDb role_name with
    | some role => update_loop rolesDb (permissions ++ role.permissions) rest
    | none => update_loop rolesDb permissions rest

/-- `get_user_permissions` from the source (lines 647-653): the effective
permission set of a user, the union of the permission lists of all its
resolved roles, built from the empty set. -/
def get_user_permissions (rolesDb : RolesDb) (user : User) : List String :=
  update_loop rolesDb [] user.roles

/-- The declarative effective capability set, written from the words of the
specification: the union of the capability sets of all roles in the
role list of the principal that resolve in the role registry. -/
def spec_effective_capabilities (rolesDb : RolesDb) (P : User) : Set String :=
  {c | ∃ name, name ∈ P.roles ∧ ∃ role, rolesDb name = some role ∧ c ∈ role.permissions}

theorem mem_update_loop_iff (rolesDb : RolesDb) (c : String)
    (names : List String) :
    ∀ acc : List String, c ∈ update_loop rolesDb acc names ↔
      c ∈ acc ∨ ∃ name, name ∈ names ∧
        ∃ role, rolesDb name = some role ∧ c ∈ role.permissions := by
  induction names with
  | nil => intro acc; simp [update_loop]
  | cons n rest ih =>
    intro acc
    cases h : rolesDb n with
    | none =>
      simp only [update_loop, h]
      rw [ih]
      constructor
      · rintro (hacc | ⟨name, hmem, hrest⟩)
        · exact Or.inl hacc
        · exact Or.inr ⟨name, List.mem_cons_of_mem _ hmem, hrest⟩
      · rintro (hacc | ⟨name, hmem, role, hget, hperm⟩)
        · exact Or.inl hacc
        · rcases List.mem_cons.mp hmem with rfl | hmem
          · rw [h] at hget; cases hget
          · exact Or.inr ⟨name, hmem, role, hget, hperm⟩
    | some r =>
      simp only [update_loop, h]
      rw [ih, List.mem_append]
      constructor
      · rintro ((hacc | hr) | ⟨name, hmem, hrest⟩)
        · exact Or.inl hacc
        · exact Or.inr ⟨n, List.mem_cons_self n rest, r, h, hr⟩
        · exact Or.inr ⟨name, List.mem_cons_of_mem _ hmem, hrest⟩
      · rintro (hacc | ⟨name, hmem, role, hget, hperm⟩)
        · exact Or.inl (Or.inl hacc)
        · rcases List.mem_cons.mp hmem with rfl | hmem
          · rw [h] at hget
            cases hget
            exact Or.inl (Or.inr hperm)
          · exact Or.inr ⟨name, hmem, role, hget, hperm⟩

/-- `get_current_user` from the source: a bearer token is looked up as a
key of the user registry; an unknown token raises 401 with a
WWW-Authenticate header, a disabled user raises 400 Inactive user, and
otherwise the user object is returned. No credential is involved. -/
def get_current_user (usersDb : UsersDb) (token : String) : Except HTTPException User :=
  match usersDb token with
  | none =>
    Except.error ⟨401, "Invalid authentication credentials", [("WWW-Authenticate", "Bearer")]⟩
  | some user =>
    if user.disabled then Except.error ⟨400, "Inactive user", []⟩
    else Except.ok user

/-- The response body of a successful `login` call. -/
structure TokenResponse where
  access_token : String
  token_type : String
deriving DecidableEq, Repr

/-- The single combined authentication failure raised by `login` for both
an unknown username and a wrong password. -/
def IncorrectUsernameOrPassword : HTTPException :=
  ⟨401, "Incorrect username or password", []⟩

/-- The error raised by `get_current_user` for a disabled user; it is the
code-level image of the PrincipalDisabled error of the specification. -/
def PrincipalDisabled : HTTPException := ⟨400, "Inactive user", []⟩

/-- The error raised by `permission_required` when the role loop grants no
permission; the code-level image of Forbidden(capability). -/
def Forbidden (permission : String) : HTTPException :=
  ⟨403, "Require " ++ permission ++ " permission", []⟩

/-- The error raised by the `permission_required` wrapper when the keyword
arguments carry no truthy current_user. -/
def NotAuthenticated : HTTPException := ⟨401, "Not authenticated", []⟩

/-- `login` from the source: a username absent from the user registry or a
stored password different from the supplied one raise one and the same
401; on success the token returned is literally the username. -/
def login (usersDb : UsersDb) (username password : String) :
    Except HTTPException TokenResponse :=
  match usersDb username with
  | none => Except.error IncorrectUsernameOrPassword
  | some user =>
    if user.password ≠ password then Except.error IncorrectUsernameOrPassword
    else Except.ok ⟨username, "bearer"⟩

/-- The authentication flow of the specification operation `authenticate`:
a `login` call followed by presenting the returned access token to
`get_current_user`, exactly as the host transport composes the two source
functions. -/
def authenticate (usersDb : UsersDb) (identity credential : String) :
    Except HTTPException User :=
  match login usersDb identity credential with
  | Except.error e => Except.error e
  | Except.ok tok => get_current_user usersDb tok.access_token

/-- The wrapper produced by the `permission_required(permission)` decorator
around a handler `func`: read current_user from the keyword arguments
(`None` or absent is the only falsy possibility, modelled as `none`);
without it raise 401 Not authenticated; then run the role loop; without the
permission raise 403; otherwise call the handler. -/
def permission_required (permission : String) (rolesDb : RolesDb)
    (func : User → Except HTTPException α) :
    Option User → Except HTTPException α
  | none => Except.error NotAuthenticated
  | some current_user =>
    if has_permission rolesDb current_user permission then func current_user
    else Except.error (Forbidden permission)

/-- The pair of registries as one state value, for the stateful reading of
the evaluation: every step of the role loop threads the registries and
the only primitive applied to them is the read `dict.get`. -/
structure Registries where
  users_db : UsersDb
  roles_db : RolesDb

/-- The role loop read as a state transformer over the registries: the
evaluation returns its boolean together with the final registry state. -/
def role_loop_run (permission : String) : Registries → List String → Bool × Registries
  | s, [] => (false, s)
  | s, role_name :: rest =>
    match s.roles_db role_name with
    | some role =>
      if permission ∈ role.permissions then (true, s)
      else role_loop_run permission s rest
    | none => role_loop_run permission s rest

theorem role_loop_run_spec (permission : String) (names : List String) :
    ∀ s : Registries, role_loop_run permission s names =
      (role_loop s.roles_db permission names, s) := by
  induction names with
  | nil => intro s; rfl
  | cons n rest ih =>
    intro s
    cases h : s.roles_db n with
    | none =>
      simp only [role_loop_run, role_loop, h]
      exact ih s
    | some r =>
      simp only [role_loop_run, role_loop, h]
      by_cases hp : permission ∈ r.permissions
      · rw [if_pos hp, if_pos hp]
      · rw [if_neg hp, if_neg hp]
        exact ih s

/-- Claim C1: hasCapability is true exactly when some role name of the
role list of the principal resolves in the role registry to a role whose
capability set contains the capability; unresolvable names are skipped
with no error (the loop simply continues on them), and the loop yields
true immediately on the first granting role, whatever follows it. -/
theorem has_permission_iff_granting_role (rolesDb : RolesDb) (P : User) (c : String) :
    (has_permission rolesDb P c = true ↔
      ∃ name, name ∈ P.roles ∧
        ∃ role, rolesDb name = some role ∧ c ∈ role.permissions) ∧
    (∀ name rest, rolesDb name = none →
      role_loop rolesDb c (name :: rest) = role_loop rolesDb c rest) ∧
    (∀ name rest role, rolesDb name = some role → c ∈ role.permissions →
      role_loop rolesDb c (name :: rest) = true) := by
  refine ⟨role_loop_eq_true_iff rolesDb c P.roles, ?_, ?_⟩
  · intro name rest h
    simp [role_loop, h]
  · intro name rest role h hp
    simp [role_loop, h, hp]

/-- Witness for C1 at the fake registries: the admin user holds the delete
capability through the admin role. -/
theorem has_permission_iff_granting_role_witness :
    has_permission fake_roles_db ⟨"admin", "adminpass", ["admin"], false⟩ "delete" = true :=
  (has_permission_iff_granting_role fake_roles_db
      ⟨"admin", "adminpass", ["admin"], false⟩ "delete").1.mpr
    ⟨"admin", by decide, ⟨"admin", ["create", "read", "update", "delete"]⟩, by decide, by decide⟩

/-- Claim C5: the short-circuiting role loop is equivalent to the
declarative union reading: it grants exactly the members of the union of
the capability sets of the resolved roles, stated once against the set
written from the specification and once against the accumulating
`get_user_permissions` of the source. -/
theorem has_permission_eq_union (rolesDb : RolesDb) (P : User) (c : String) :
    (has_permission rolesDb P c = true ↔ c ∈ spec_effective_capabilities rolesDb P) ∧
    (has_permission rolesDb P c = true ↔ c ∈ get_user_permissions rolesDb P) := by
  constructor
  · rw [has_permission, role_loop_eq_true_iff]
    exact Iff.rfl
  · rw [has_permission, role_loop_eq_true_iff, get_user_permissions,
      mem_update_loop_iff rolesDb c P.roles []]
    simp

/-- Claim C6: any capability held by a role registered under its own name
is granted to every principal whose role list carries that name. -/
theorem role_capability_granted (rolesDb : RolesDb) (R : Role) (c : String) (P : User)
    (h1 : rolesDb R.name = some R) (h2 : c ∈ R.permissions) (h3 : R.name ∈ P.roles) :
    has_permission rolesDb P c = true :=
  (role_loop_eq_true_iff rolesDb c P.roles).mpr ⟨R.name, h3, R, h1, h2⟩

/-- Witness for C6 at the fake registries: the editor role grants update
to the editor user. -/
theorem role_capability_granted_witness :
    has_permission fake_roles_db ⟨"editor", "editorpass", ["editor"], false⟩ "update" = true :=
  role_capability_granted fake_roles_db ⟨"editor", ["read", "update"]⟩ "update"
    ⟨"editor", "editorpass", ["editor"], false⟩ (by decide) (by decide) (by decide)

/-- Claim C7: a principal with an empty role list is granted nothing. -/
theorem empty_roles_has_no_permission (rolesDb : RolesDb) (P : User) (c : String)
    (h : P.roles = []) : has_permission rolesDb P c = false := by
  rw [has_permission, h]
  rfl

/-- Witness for C7: a user carrying no roles lacks even read. -/
theorem empty_roles_has_no_permission_witness :
    has_permission fake_roles_db ⟨"norole", "pw", [], false⟩ "read" = false :=
  empty_roles_has_no_permission fake_roles_db ⟨"norole", "pw", [], false⟩ "read" rfl

/-- A registry extending the fake user registry with one disabled user,
used to exercise the disabled branch (the fake registry carries none). -/
def users_db_with_disabled : UsersDb := fun username =>
  if username = "dave" then some ⟨"dave", "davepass", ["viewer"], true⟩
  else fake_users_db username

/-- Claim C2: authenticating a registered but disabled principal with its
correct credential fails with the PrincipalDisabled error (the 400
Inactive user raised by `get_current_user`) and never succeeds. -/
theorem authenticate_disabled_fails (usersDb : UsersDb) (identity credential : String)
    (P : User) (hmem : usersDb identity = some P) (hpw : P.password = credential)
    (hdis : P.disabled = true) :
    authenticate usersDb identity credential = Except.error PrincipalDisabled ∧
    ∀ u : User, authenticate usersDb identity credential ≠ Except.ok u := by
  have herr : authenticate usersDb identity credential = Except.error PrincipalDisabled := by
    simp [authenticate, login, hmem, hpw, get_current_user, hdis, PrincipalDisabled]
  refine ⟨herr, fun u hok => ?_⟩
  rw [herr] at hok
  cases hok

/-- Witness for C2: the disabled user dave with the correct password is
rejected as PrincipalDisabled. -/
theorem authenticate_disabled_fails_witness :
    authenticate users_db_with_disabled "dave" "davepass" = Except.error PrincipalDisabled ∧
    ∀ u : User, authenticate users_db_with_disabled "dave" "davepass" ≠ Except.ok u :=
  authenticate_disabled_fails users_db_with_disabled "dave" "davepass"
    ⟨"dave", "davepass", ["viewer"], true⟩ (by decide) rfl rfl

/-- Counterexample to claim C3: the code does not distinguish the two
authentication failures. A wrong credential for the registered editor and
an unknown identity produce one and the same error value, the combined
401 Incorrect username or password raised by the single check of `login`;
no InvalidCredential error distinct from an UnknownPrincipal error
exists. -/
theorem authenticate_error_counterexample :
    authenticate fake_users_db "editor" "wrongpass" =
      authenticate fake_users_db "ghost" "anything" ∧
    authenticate fake_users_db "editor" "wrongpass" =
      Except.error IncorrectUsernameOrPassword :=
  ⟨rfl, rfl⟩

/-- Amended claim C3: both authentication failures collapse into the one
combined error: a registered identity with a wrong credential and an
unregistered identity each fail with the same 401 Incorrect username or
password, and in neither case does authenticate succeed. -/
theorem authenticate_single_combined_error (usersDb : UsersDb) (identity credential : String) :
    (usersDb identity = none →
      authenticate usersDb identity credential =
        Except.error IncorrectUsernameOrPassword) ∧
    (∀ P : User, usersDb identity = some P → P.password ≠ credential →
      authenticate usersDb identity credential =
        Except.error IncorrectUsernameOrPassword) := by
  constructor
  · intro h
    simp [authenticate, login, h]
  · intro P h hne
    simp [authenticate, login, h, hne]

/-- Witness for the amended C3: the editor with a wrong password receives
the combined error. -/
theorem authenticate_single_combined_error_witness :
    authenticate fake_users_db "editor" "wrongpass" =
      Except.error IncorrectUsernameOrPassword :=
  (authenticate_single_combined_error fake_users_db "editor" "wrongpass").2
    ⟨"editor", "editorpass", ["editor"], false⟩ (by decide) (by decide)

/-- Claim C4: the permission gate wraps hasCapability: with the permission
the wrapped handler runs and its value is returned, without it the call
fails with Forbidden(permission) whatever the handler is (its effect is
never executed), and a unit handler succeeds exactly when hasCapability
holds. -/
theorem permission_required_gate {α : Type} (rolesDb : RolesDb) (P : User) (c : String)
    (func : User → Except HTTPException α) :
    (has_permission rolesDb P c = true →
      permission_required c rolesDb func (some P) = func P) ∧
    (has_permission rolesDb P c = false →
      permission_required c rolesDb func (some P) = Except.error (Forbidden c)) ∧
    (permission_required c rolesDb (fun _ => Except.ok ()) (some P) = Except.ok () ↔
      has_permission rolesDb P c = true) := by
  refine ⟨?_, ?_, ?_⟩
  · intro h
    simp [permission_required, h]
  · intro h
    simp [permission_required, h]
  · cases h : has_permission rolesDb P c <;> simp [permission_required, h]

/-- Witness for C4: the viewer lacks update, so the gate returns
Forbidden(update) without running the handler. -/
theorem permission_required_gate_witness :
    permission_required "update" fake_roles_db (fun u => Except.ok u.username)
      (some ⟨"viewer", "viewerpass", ["viewer"], false⟩) =
      Except.error (Forbidden "update") :=
  (permission_required_gate fake_roles_db ⟨"viewer", "viewerpass", ["viewer"], false⟩
      "update" (fun u => Except.ok u.username)).2.1 (by decide)

/-- Claim C8: the permission evaluation is deterministic and mutation
free: run as a state transformer over the pair of registries it returns
the registries unchanged, a second run from the state left by the first
returns the same boolean, and that boolean is the pure function
`has_permission` of the inputs alone. -/
theorem has_permission_deterministic (s : Registries) (P : User) (c : String) :
    (role_loop_run c s P.roles).2 = s ∧
    (role_loop_run c ((role_loop_run c s P.roles).2) P.roles).1 =
      (role_loop_run c s P.roles).1 ∧
    (role_loop_run c s P.roles).1 = has_permission s.roles_db P c := by
  rw [role_loop_run_spec c P.roles s]
  exact ⟨rfl, by rw [role_loop_run_spec c P.roles s], rfl⟩

/-- Claim C9: the bearer token is literally the identity string: login
hands back the username as the access token, and `get_current_user` on a
token returns the registered enabled user with no credential involved,
fails 401 exactly on tokens that are no registry key, and fails 400
Inactive user exactly on disabled users. -/
theorem get_current_user_characterization (usersDb : UsersDb) (token : String) :
    (get_current_user usersDb token =
        Except.error ⟨401, "Invalid authentication credentials",
          [("WWW-Authenticate", "Bearer")]⟩ ↔
      usersDb token = none) ∧
    (get_current_user usersDb token = Except.error PrincipalDisabled ↔
      ∃ u : User, usersDb token = some u ∧ u.disabled = true) ∧
    (∀ u : User, get_current_user usersDb token = Except.ok u ↔
      usersDb token = some u ∧ u.disabled = false) ∧
    (∀ u : User, usersDb token = some u →
      login usersDb token u.password = Except.ok ⟨token, "bearer"⟩) := by
  refine ⟨?_, ?_, ?_, ?_⟩
  · cases h : usersDb token with
    | none => simp [get_current_user, h]
    | some u =>
      cases hd : u.disabled <;> simp [get_current_user, h, hd, PrincipalDisabled]
  · cases h : usersDb token with
    | none => simp [get_current_user, h, PrincipalDisabled]
    | some u =>
      cases hd : u.disabled <;> simp [get_current_user, h, hd, PrincipalDisabled]
  · intro u
    cases h : usersDb token with
    | none => simp [get_current_user, h]
    | some v =>
      cases hd : v.disabled <;> simp [get_current_user, h, hd] <;>
        (rintro rfl; exact hd)
  · intro u h
    simp [login, h]

/-- Witness for C9: the token admin alone, with no password, yields the
admin user. -/
theorem get_current_user_characterization_witness :
    get_current_user fake_users_db "admin" =
      Except.ok ⟨"admin", "adminpass", ["admin"], false⟩ :=
  ((get_current_user_characterization fake_users_db "admin").2.2.1
      ⟨"admin", "adminpass", ["admin"], false⟩).mpr ⟨by decide, rfl⟩

/-- Claim C10: a call of a protected handler whose keyword arguments carry
no truthy current_user fails 401 Not authenticated whatever the required
permission, the role registry and the handler: no permission is evaluated
and the handler is never invoked. -/
theorem permission_required_not_authenticated {α : Type} (c : String) (rolesDb : RolesDb)
    (func : User → Except HTTPException α) :
    permission_required c rolesDb func none = Except.error NotAuthenticated := rfl
